import Mathlib

/-!
Shallow embedding of the repository `chelovek21/dataset` (file
`src/dataset/batch_image.py`, class `ImagesBatch`) together with the
dispatcher and base-class pieces that the spec describes but whose code
(`src/dataset/batch.py`, `src/dataset/decorators.py`) is not included
under `src/`.  Machine values are modelled as Lean `Int`s, numpy arrays
as (rectangular) nested lists, Python exceptions as `Except` errors and
Python `None` as `Option.none`.
-/

/-- A per-item Python value as it occurs in this program: a PIL image
(carrying its pixel array), a numeric scalar, or a 2-D numpy array
given as a list of rows. -/
inductive NpVal where
  | pil (pixels : List (List Int))
  | scalar (x : Int)
  | arr2 (a : List (List Int))
  deriving DecidableEq

/-- A 2-D numpy array: a list of rows. -/
abbrev Arr2 := List (List Int)

/-- A 3-D numpy array: a list of 2-D slices. -/
abbrev Arr3 := List (List (List Int))

/-- The value stored in one attribute slot of the batch container:
either a positional sequence of per-item values (a Python list) or a
composite stacked array. -/
inductive AttrVal where
  | vals (vs : List NpVal)
  | arr3 (a : Arr3)
  deriving DecidableEq

/-- The error raised by one per-item invocation of a user callable. -/
structure ItemErr where
  msg : String
  deriving DecidableEq

/-- Python exceptions raised by the code under consideration.
`aggregateFailure` models `ValueError("Could not assemble the batch", errors)`
(line 78), `shapeMismatch` the `ValueError` that `np.dstack` raises on
incompatible shapes (line 84), `unsupportedFormat` the
`ValueError("Unsupported format:", fmt)` (line 129), `indexError` a Python
`IndexError`, `unboundLocal` an `UnboundLocalError`, `typeError` a
`TypeError`, and `itemRaised` re-raises an error coming out of a user
callable. -/
inductive PyErr where
  | aggregateFailure (errors : List (Nat × ItemErr))
  | shapeMismatch
  | unsupportedFormat (fmt : String)
  | indexError
  | unboundLocal
  | typeError
  | itemRaised (e : ItemErr)
  deriving DecidableEq

/-- The outcome of one work item, spec section 3: a tagged union of a
success value and a captured failure. -/
inductive Outcome where
  | success (v : NpVal)
  | failure (e : ItemErr)
  deriving DecidableEq

def Outcome.isFailure : Outcome → Bool
  | .success _ => false
  | .failure _ => true

/-- The raw value carried by an outcome.  In the Python code the result
list holds the values themselves; the `failure` branch is only ever
reached behind the `any_action_failed` guard, where it is unreachable,
so an arbitrary default is returned there. -/
def Outcome.val : Outcome → NpVal
  | .success v => v
  | .failure _ => .scalar 0

/-- The attribute names that `getattr`/`setattr` are invoked with in
this file: the three properties and the plain attribute `_new_attr`
(constructor `new_attr`). -/
inductive AttrName where
  | images | labels | masks | new_attr
  deriving DecidableEq

/-- The batch state: the ordered identifiers, the underlying data store
`_data` (a 3-slot container, `none` when nothing was ever loaded) and
the helper attribute `_new_attr`. -/
structure ImagesBatch where
  index : List Nat
  _data : Option (List (Option AttrVal)) := none
  _new_attr : Option AttrVal := none
  deriving DecidableEq

/-- Modelled from the spec: the base `Batch` class lives in
`src/dataset/batch.py`, which is not under `src/`.  Per spec sections 3
and 6, a Batch is constructed from an index and an optional preloaded
attribute store, and its `data` accessor returns that store. -/
def Batch.data (b : ImagesBatch) : Option (List (Option AttrVal)) :=
  b._data

/-- Modelled from the spec: `ImagesBatch.__init__` (lines 29-31) calls
the base constructor, which is not under `src/`; per spec section 6 the
preloaded value seeds the attribute store, and `_new_attr` starts as
`None`. -/
def mkImagesBatch (index : List Nat) (preloaded : Option (List (Option AttrVal))) :
    ImagesBatch :=
  { index := index, _data := preloaded, _new_attr := none }

/-- The overridden `data` property (lines 33-36): the base store when it
is set, otherwise the tuple `(None, None, None)`. -/
def ImagesBatch.data (b : ImagesBatch) : List (Option AttrVal) :=
  match Batch.data b with
  | some d => d
  | none => [none, none, none]

/-- The `images` property (lines 38-41): `self.data[0]`. -/
def ImagesBatch.images (b : ImagesBatch) : Option AttrVal :=
  (ImagesBatch.data b).getD 0 none

/-- The `labels` property (lines 50-53): `self.data[1]`. -/
def ImagesBatch.labels (b : ImagesBatch) : Option AttrVal :=
  (ImagesBatch.data b).getD 1 none

/-- The `masks` property (lines 62-65): `self.data[2]`. -/
def ImagesBatch.masks (b : ImagesBatch) : Option AttrVal :=
  (ImagesBatch.data b).getD 2 none

/-- Python list item assignment `l[i] = x`: succeeds exactly when `i`
is in range, otherwise raises `IndexError` (modelled as `none`). -/
def listSet (l : List α) (i : Nat) (x : α) : Option (List α) :=
  if i < l.length then some (l.set i x) else none

/-- The `images` setter (lines 43-48): copy `self.data` into a list,
assign position 0, store the list back into `_data`. -/
def ImagesBatch.setImages (b : ImagesBatch) (v : AttrVal) : Except PyErr ImagesBatch :=
  match listSet (ImagesBatch.data b) 0 (some v) with
  | some d => .ok { b with _data := some d }
  | none => .error .indexError

/-- The `labels` setter (lines 55-60): assigns position 1. -/
def ImagesBatch.setLabels (b : ImagesBatch) (v : AttrVal) : Except PyErr ImagesBatch :=
  match listSet (ImagesBatch.data b) 1 (some v) with
  | some d => .ok { b with _data := some d }
  | none => .error .indexError

/-- The `masks` setter (lines 67-72): the source assigns `data[3] = value`
(line 71), position 3, not position 2 which the getter reads. -/
def ImagesBatch.setMasks (b : ImagesBatch) (v : AttrVal) : Except PyErr ImagesBatch :=
  match listSet (ImagesBatch.data b) 3 (some v) with
  | some d => .ok { b with _data := some d }
  | none => .error .indexError

/-- Python `getattr(self, name)` for the attribute names used in this
file. -/
def getattr (b : ImagesBatch) (a : AttrName) : Option AttrVal :=
  match a with
  | .images => ImagesBatch.images b
  | .labels => ImagesBatch.labels b
  | .masks => ImagesBatch.masks b
  | .new_attr => b._new_attr

/-- Python `setattr(self, name, v)`: routes through the property setters
for the three properties and assigns the plain attribute directly. -/
def setattr (b : ImagesBatch) (a : AttrName) (v : AttrVal) : Except PyErr ImagesBatch :=
  match a with
  | .images => ImagesBatch.setImages b v
  | .labels => ImagesBatch.setLabels b v
  | .masks => ImagesBatch.setMasks b v
  | .new_attr => .ok { b with _new_attr := some v }

/-- Modelled from the spec: `self.index.get_pos(ix)` is provided by the
index class in `src/dataset/base.py`, not under `src/`; per spec
section 3 it maps an identifier to its position within `indices`. -/
def get_pos (indices : List Nat) (ix : Nat) : Nat :=
  indices.indexOf ix

/-- Modelled from the spec: `any_action_failed` is imported from
`src/dataset/decorators.py`, not under `src/`; per spec sections 4.3 and
7 it reports whether any outcome of the dispatch is a failure. -/
def any_action_failed (allRes : List Outcome) : Bool :=
  allRes.any Outcome.isFailure

/-- Modelled from the spec: `self.get_errors` is provided by the base
`Batch` class, not under `src/`; per spec section 7 the aggregate error
"carries the complete list of (position, underlying_error)" pairs, one
per failed item.  The counter argument tracks the position of the head
of the remaining list. -/
def get_errors_from (p : Nat) : List Outcome → List (Nat × ItemErr)
  | [] => []
  | .success _ :: rest => get_errors_from (p + 1) rest
  | .failure e :: rest => (p, e) :: get_errors_from (p + 1) rest

/-- Modelled from the spec: the `(position, error)` pairs of all failed
items, in position order. -/
def get_errors (allRes : List Outcome) : List (Nat × ItemErr) :=
  get_errors_from 0 allRes

/-- Modelled from the spec: the parallel dispatcher (`inbatch_parallel`,
`src/dataset/decorators.py`, not under `src/`).  Per spec section 4.2 it
runs the callable on every input and records, positionally, a success
with the returned value or a failure capturing the raised error; result
order is positional regardless of execution interleaving, so the
sequential map is the faithful functional model. -/
def dispatch (fn : α → Except ItemErr NpVal) (inputs : List α) : List Outcome :=
  inputs.map (fun x =>
    match fn x with
    | .ok v => .success v
    | .error e => .failure e)

/-- The list `[f 0, ..., f (n-1)]`, used to express numpy loops that
build an output array index by index. -/
def build (n : Nat) (f : Nat → α) : List α :=
  (List.range n).map f

/-- The shape of a 2-D numpy array: defined when the row list is
nonempty and rectangular, in which case it is `(rows, columns)`. -/
def shape2 (a : Arr2) : Option (Nat × Nat) :=
  match a with
  | [] => none
  | r :: rs => if rs.all (fun r2 => r2.length == r.length) then some (rs.length + 1, r.length) else none

/-- numpy `atleast_3d` as used by `np.dstack` on the per-item results: a
scalar becomes a `(1,1,1)` array and a 2-D `(h,w)` array becomes
`(h,w,1)` (each entry wrapped in a singleton depth axis).  A PIL image
is converted through its pixel array.  An input that is not a
rectangular array yields `none` (numpy fails to form an array). -/
def atleast3d (v : NpVal) : Option Arr3 :=
  match v with
  | .scalar x => some [[[x]]]
  | .arr2 a =>
    match shape2 a with
    | some _ => some (a.map (fun row => row.map (fun x => [x])))
    | none => none
  | .pil a =>
    match shape2 a with
    | some _ => some (a.map (fun row => row.map (fun x => [x])))
    | none => none

/-- `atleast_3d` applied to every element, failing if any element
fails (the semantics of mapping `atleast_3d` inside `np.dstack`). -/
def atleastAll : List NpVal → Option (List Arr3)
  | [] => some []
  | v :: vs =>
    match atleast3d v, atleastAll vs with
    | some a, some as => some (a :: as)
    | _, _ => none

/-- numpy `np.dstack(all_res)` (line 84): convert every input with
`atleast_3d` and concatenate along axis 2.  Concatenation requires every
converted array to agree with the first one on the first two dimensions;
otherwise (and on an empty input) numpy raises, modelled as `none`. -/
def dstackList (vs : List NpVal) : Option Arr3 :=
  match atleastAll vs with
  | none => none
  | some as =>
    match as with
    | [] => none
    | a0 :: _ =>
      let h := a0.length
      let w := (a0.headD []).length
      if as.all (fun a => a.length == h && a.all (fun row => row.length == w)) then
        some (build h (fun i => build w (fun j =>
          (as.map (fun a => (a.getD i []).getD j [])).flatten)))
      else none

/-- numpy `np.transpose(x, (2, 0, 1))` (line 84) on a rectangular 3-D
array: the output at `[k][i][j]` is the input at `[i][j][k]`. -/
def transpose201 (a : Arr3) : Arr3 :=
  let h := a.length
  let w := (a.headD []).length
  let d := ((a.headD []).headD []).length
  build d (fun k => build h (fun i => build w (fun j =>
    ((a.getD i []).getD j []).getD k 0)))

/-- `ImagesBatch.assemble` (lines 74-85).  If any outcome failed, raise
`ValueError("Could not assemble the batch", self.get_errors(all_res))`
before anything is written, so the exception leaves the batch unchanged.
Otherwise, when `all_res[0]` is a PIL image the target attribute is set
to the result list wholesale, else to
`np.transpose(np.dstack(all_res), (2, 0, 1))`.  The `attr` argument is
`kwargs.get("attr", "images")`; indexing `all_res[0]` on an empty list
raises `IndexError`. -/
def assemble (allRes : List Outcome) (attr : AttrName) (b : ImagesBatch) :
    Except PyErr ImagesBatch :=
  if any_action_failed allRes then
    .error (.aggregateFailure (get_errors allRes))
  else
    match allRes with
    | [] => .error .indexError
    | o0 :: _ =>
      let vals := allRes.map Outcome.val
      match o0.val with
      | .pil _ => setattr b attr (.vals vals)
      | _ =>
        match (dstackList vals).map transpose201 with
        | some r => setattr b attr (.arr3 r)
        | none => .error .shapeMismatch

/-- A load source: either a single positionally-indexable container or a
tuple of such containers (the `isinstance(src, tuple)` test on
line 124). -/
inductive LoadSrc where
  | single (c : List NpVal)
  | tup (cs : List (List NpVal))
  deriving DecidableEq

/-- numpy fancy indexing `c[indices]`: the elements of `c` at the given
identifier values, raising `IndexError` (modelled as `none`) when an
identifier is out of range. -/
def selectByIndices (c : List NpVal) (indices : List Nat) : Option (List NpVal) :=
  if indices.all (fun ix => ix < c.length) then
    some (indices.map (fun ix => c.getD ix (.scalar 0)))
  else none

/-- One slot of the tuple branch of `load` (line 125):
`src[i][self.indices] if len(src) > i else None`. -/
def loadSlot (cs : List (List NpVal)) (indices : List Nat) (i : Nat) :
    Except PyErr (Option AttrVal) :=
  if h : i < cs.length then
    match selectByIndices (cs.get ⟨i, h⟩) indices with
    | some sel => .ok (some (.vals sel))
    | none => .error .indexError
  else .ok none

/-- `ImagesBatch.load` (lines 120-130).  With `fmt` set the method
raises `ValueError("Unsupported format:", fmt)` before touching `_data`;
with `fmt` unset, a tuple source fills the three slots via `loadSlot`
over `range(3)` and a single source is assigned as
`(src[self.indices], None, None)`. -/
def load (b : ImagesBatch) (src : LoadSrc) (fmt : Option String) :
    Except PyErr ImagesBatch :=
  match fmt with
  | some f => .error (.unsupportedFormat f)
  | none =>
    match src with
    | .tup cs => do
      let s0 ← loadSlot cs b.index 0
      let s1 ← loadSlot cs b.index 1
      let s2 ← loadSlot cs b.index 2
      .ok { b with _data := some [s0, s1, s2] }
    | .single c =>
      match selectByIndices c b.index with
      | some sel => .ok { b with _data := some [some (.vals sel), none, none] }
      | none => .error .indexError

/-- The value a Python method invocation hands back to its caller:
either a batch or the implicit `None` of a method that falls off its
end without a `return` statement. -/
inductive PyRet where
  | pyNone
  | batch (b : ImagesBatch)
  deriving DecidableEq

/-- `ImagesBatch.dump` (lines 132-136): discards its arguments and
returns `self`; the batch state is untouched. -/
def dump (b : ImagesBatch) (dst : String) (fmt : Option String) :
    Except PyErr (PyRet × ImagesBatch) :=
  let _ := dst
  let _ := fmt
  .ok (.batch b, b)

/-- The per-item body of `ImagesBatch.apply_transform` (lines 138-149).
When `src` is set, line 146 evaluates `src_attr[pos]`, but the local
`pos` is only assigned on line 148, so the method raises
`UnboundLocalError` before the callable is ever invoked.  When `src` is
`None`, the method computes `pos = self.index.get_pos(ix)` and performs
the in-place item assignment `dst_attr[pos] = func(*args, **kwargs)`;
mutating the container object updates the slot the attribute reads
(note this is plain-list item assignment, not a property setter).
Assignment into a non-list attribute value (Python `None` or a composite
array) is modelled as `TypeError`; composite-array item assignment is
not exercised by this program. -/
def apply_transform_item (b : ImagesBatch) (ix : Nat) (src : Option AttrName)
    (dst : AttrName) (func : List NpVal → Except ItemErr NpVal) (args : List NpVal) :
    Except PyErr ImagesBatch :=
  match src with
  | some s =>
    let _src_attr := getattr b s
    .error .unboundLocal
  | none =>
    let all_args := args
    let dst_attr := getattr b dst
    let pos := get_pos b.index ix
    match dst_attr with
    | some (.vals vs) =>
      match func all_args with
      | .error e => .error (.itemRaised e)
      | .ok r =>
        match listSet vs pos r with
        | some vs2 =>
          .ok (match dst with
            | .images => { b with _data := some ((ImagesBatch.data b).set 0 (some (.vals vs2))) }
            | .labels => { b with _data := some ((ImagesBatch.data b).set 1 (some (.vals vs2))) }
            | .masks => { b with _data := some ((ImagesBatch.data b).set 2 (some (.vals vs2))) }
            | .new_attr => { b with _new_attr := some (.vals vs2) })
        | none => .error .indexError
    | _ => .error .typeError

/-- Python `tuple(x)` on an attribute value, as evaluated on line 158:
iterating `None` raises `TypeError`; iterating a list yields its
elements; iterating a 3-D numpy array yields its 2-D slices. -/
def iterateAttr : Option AttrVal → Option (List NpVal)
  | none => none
  | some (.vals vs) => some vs
  | some (.arr3 a) => some (a.map NpVal.arr2)

/-- `ImagesBatch.apply_transform_all` (lines 151-160).  With `src` set,
line 158 runs `tuple(src_attr, *args)`: `tuple` accepts at most one
argument, so nonempty extra arguments raise `TypeError`, and otherwise
the source attribute is converted to a tuple of its elements.  The
callable result is bound to the local `dst_attr` and never written back,
and the method has no `return` statement, so it hands back the implicit
Python `None` and leaves the batch unchanged. -/
def apply_transform_all (b : ImagesBatch) (src : Option AttrName) (dst : AttrName)
    (func : List NpVal → Except ItemErr NpVal) (args : List NpVal) :
    Except PyErr (PyRet × ImagesBatch) :=
  match (match src with
         | none => Except.ok args
         | some s =>
           if args.isEmpty then
             match iterateAttr (getattr b s) with
             | some xs => Except.ok xs
             | none => Except.error PyErr.typeError
           else Except.error PyErr.typeError) with
  | .error e => .error e
  | .ok all_args =>
    let _dst_attr := getattr b dst
    match func all_args with
    | .error e => .error (.itemRaised e)
    | .ok _res => .ok (.pyNone, b)

/-- A freshly constructed, unloaded 3-item batch used as the concrete
input of several witnesses. -/
def batch0 : ImagesBatch :=
  mkImagesBatch [0, 1, 2] none

/-! General list lemmas used below. -/

theorem build_length (n : Nat) (f : Nat → α) : (build n f).length = n := by
  simp [build]

theorem build_getElem (n : Nat) (f : Nat → α) (i : Nat)
    (h : i < (build n f).length) : (build n f)[i] = f i := by
  simp [build]

theorem build_getD (n : Nat) (f : Nat → α) (d : α) (i : Nat) (h : i < n) :
    (build n f).getD i d = f i := by
  have hi : i < (build n f).length := by simpa [build_length]
  rw [List.getD_eq_getElem _ _ hi, build_getElem]

theorem build_congr (n : Nat) (f g : Nat → α) (h : ∀ i, i < n → f i = g i) :
    build n f = build n g := by
  unfold build
  exact List.map_congr_left (fun a ha => h a (List.mem_range.mp ha))

theorem build_eq_self (l : List α) (d : α) :
    build l.length (fun i => l.getD i d) = l := by
  apply List.ext_getElem (build_length _ _)
  intro n h1 h2
  rw [build_getElem, List.getD_eq_getElem _ _ h2]

theorem flatten_map_singleton (l : List α) (f : α → β) :
    (l.map (fun x => [f x])).flatten = l.map f := by
  induction l with
  | nil => rfl
  | cons a t ih => simp [ih]

theorem shape2_spec {a : Arr2} {h w : Nat} (hs : shape2 a = some (h, w)) :
    a.length = h ∧ 0 < h ∧ ∀ r ∈ a, r.length = w := by
  match a with
  | [] => simp [shape2] at hs
  | r :: rs =>
    by_cases hc : rs.all (fun r2 => r2.length == r.length)
    · rw [shape2, if_pos hc] at hs
      obtain ⟨hh, hw⟩ : rs.length + 1 = h ∧ r.length = w := by
        simpa using hs
      refine ⟨by simpa using hh, by omega, ?_⟩
      intro r2 hr2
      rcases List.mem_cons.mp hr2 with h1 | h1
      · rw [h1, hw]
      · have := List.all_eq_true.mp hc r2 h1
        have : r2.length = r.length := by simpa using this
        rw [this, hw]
    · rw [shape2, if_neg hc] at hs
      exact absurd hs (by simp)

theorem get_errors_from_spec (l : List Outcome) (p0 : Nat) (p : Nat) (e : ItemErr) :
    (p, e) ∈ get_errors_from p0 l ↔ ∃ i, p = p0 + i ∧ l[i]? = some (.failure e) := by
  induction l generalizing p0 with
  | nil => simp [get_errors_from]
  | cons o t ih =>
    cases o with
    | success v =>
      rw [get_errors_from, ih]
      constructor
      · rintro ⟨i, hp, hg⟩
        exact ⟨i + 1, by omega, by simpa using hg⟩
      · rintro ⟨i, hp, hg⟩
        cases i with
        | zero => simp at hg
        | succ j => exact ⟨j, by omega, by simpa using hg⟩
    | failure e2 =>
      rw [get_errors_from]
      constructor
      · intro hmem
        rcases List.mem_cons.mp hmem with h1 | h1
        · obtain ⟨hp, he⟩ : p = p0 ∧ e = e2 := by simpa using h1
          exact ⟨0, by omega, by simp [he]⟩
        · obtain ⟨i, hp, hg⟩ := (ih (p0 + 1)).mp h1
          exact ⟨i + 1, by omega, by simpa using hg⟩
      · rintro ⟨i, hp, hg⟩
        cases i with
        | zero =>
          obtain he : e2 = e := by simpa using hg
          simp [hp, he]
        | succ j =>
          refine List.mem_cons.mpr (Or.inr ((ih (p0 + 1)).mpr ⟨j, by omega, by simpa using hg⟩))

/-! Claim theorems. -/

/-- C10: for every batch whose underlying data store is unset, the
`data` property returns the three-element tuple `(None, None, None)`,
so the `images`, `labels` and `masks` getters of a freshly constructed,
unloaded batch return `None` rather than failing. -/
theorem c10_unloaded_batch_reads_none (idx : List Nat) :
    ImagesBatch.data (mkImagesBatch idx none) = [none, none, none]
    ∧ ImagesBatch.images (mkImagesBatch idx none) = none
    ∧ ImagesBatch.labels (mkImagesBatch idx none) = none
    ∧ ImagesBatch.masks (mkImagesBatch idx none) = none :=
  ⟨rfl, rfl, rfl, rfl⟩

/-- C7: for every batch, every source and every non-None `fmt`, `load`
fails with the unsupported-format error; the exception is raised before
any assignment, so the batch attributes are left unmodified. -/
theorem c7_load_with_fmt_fails (b : ImagesBatch) (src : LoadSrc) (f : String) :
    load b src (some f) = .error (.unsupportedFormat f) := rfl

/-- C5 counterexample: on the default three-slot container the claimed
successful write into position 3 does not happen; the masks setter
raises `IndexError` instead of producing any container. -/
theorem c5_counterexample :
    ImagesBatch.setMasks batch0 (.vals []) = .error .indexError := rfl

/-- C5 (amended): for every batch whose attribute container has the
default three slots, the masks setter targets position 3 — one past the
last valid slot and not position 2, the slot the getter reads — so the
list assignment is out of range, raises `IndexError`, and writes
nothing. -/
theorem c5_masks_setter_out_of_range (b : ImagesBatch) (v : AttrVal)
    (h : (ImagesBatch.data b).length = 3) :
    ImagesBatch.setMasks b v = .error .indexError := by
  unfold ImagesBatch.setMasks listSet
  rw [h]
  norm_num

/-- C5 witness: the amended statement at a concrete input. -/
theorem c5_witness :
    (ImagesBatch.data batch0).length = 3
    ∧ ImagesBatch.setMasks batch0 (.vals [.scalar 7]) = .error .indexError :=
  ⟨rfl, c5_masks_setter_out_of_range batch0 (.vals [.scalar 7]) rfl⟩

/-- C3: evaluating the per-item body of `apply_transform` with the
source attribute set raises `UnboundLocalError` (line 146 reads the
local `pos`, which line 148 assigns), instead of reading the source
value, calling the function, and writing the destination slot. -/
theorem c3_apply_transform_src_set_raises :
    apply_transform_item batch0 0 (some .images) .new_attr
      (fun _ => .ok (.scalar 5)) [] = .error .unboundLocal := rfl

/-- C8: `dump` returns the batch, but `apply_transform_all` has no
return statement and hands back the implicit Python `None`, violating
the always-returns-a-Batch contract. -/
theorem c8_apply_transform_all_returns_none :
    dump batch0 "path" none = .ok (.batch batch0, batch0)
    ∧ apply_transform_all batch0 none .images (fun _ => .ok (.scalar 5)) []
        = .ok (.pyNone, batch0) :=
  ⟨rfl, rfl⟩

/-- C9: whenever `apply_transform_all` does not raise, the batch state
is unchanged — the computed value is bound to a local and never written
back, so `images`, `labels` and `masks` keep their values. -/
theorem c9_apply_transform_all_frame (b : ImagesBatch) (src : Option AttrName)
    (dst : AttrName) (func : List NpVal → Except ItemErr NpVal) (args : List NpVal)
    (r : PyRet) (b2 : ImagesBatch)
    (h : apply_transform_all b src dst func args = .ok (r, b2)) :
    b2 = b ∧ ImagesBatch.images b2 = ImagesBatch.images b
    ∧ ImagesBatch.labels b2 = ImagesBatch.labels b
    ∧ ImagesBatch.masks b2 = ImagesBatch.masks b := by
  have hb : b2 = b := by
    unfold apply_transform_all at h
    split at h
    · simp at h
    · split at h
      · simp at h
      · obtain ⟨h1, h2⟩ : PyRet.pyNone = r ∧ b = b2 := by simpa using h
        exact h2.symm
  subst hb
  exact ⟨rfl, rfl, rfl, rfl⟩

/-- C9 witness: the frame property at a concrete input. -/
theorem c9_witness :
    apply_transform_all batch0 none .images (fun _ => .ok (.scalar 9)) []
      = .ok (.pyNone, batch0)
    ∧ batch0 = batch0 :=
  ⟨rfl, (c9_apply_transform_all_frame batch0 none .images
      (fun _ => .ok (.scalar 9)) [] .pyNone batch0 rfl).1⟩

/-- C1: whenever at least one outcome failed, `assemble` raises the
aggregate error carrying the `(position, error)` pair of every failed
item — the pairs enumerate exactly the failed positions — and the
exception is raised before any write, leaving the target attribute
unchanged. -/
theorem c1_assemble_aggregates_failures (allRes : List Outcome) (attr : AttrName)
    (b : ImagesBatch) (h : ∃ o ∈ allRes, o.isFailure = true) :
    assemble allRes attr b = .error (.aggregateFailure (get_errors allRes))
    ∧ ∀ p e, (p, e) ∈ get_errors allRes ↔ allRes[p]? = some (.failure e) := by
  constructor
  · have hfail : any_action_failed allRes = true := by
      unfold any_action_failed
      exact List.any_eq_true.mpr (by simpa using h)
    unfold assemble
    rw [if_pos hfail]
  · intro p e
    rw [get_errors, get_errors_from_spec]
    constructor
    · rintro ⟨i, hp, hg⟩
      have : p = i := by omega
      rw [this]; exact hg
    · intro hg
      exact ⟨p, by omega, hg⟩

/-- A concrete outcome list with one failed item, for the C1 witness. -/
def l1 : List Outcome := [.success (.scalar 1), .failure ⟨"boom"⟩]

/-- C1 witness: the aggregate error at a concrete input carries the
single failed pair at position 1. -/
theorem c1_witness :
    (∃ o ∈ l1, o.isFailure = true)
    ∧ assemble l1 .images batch0
        = .error (.aggregateFailure [(1, ⟨"boom"⟩)]) := by
  refine ⟨⟨.failure ⟨"boom"⟩, by simp [l1], rfl⟩, ?_⟩
  exact (c1_assemble_aggregates_failures l1 .images batch0
    ⟨.failure ⟨"boom"⟩, by simp [l1], rfl⟩).1

/-! Lemmas about the dstack/transpose pipeline. -/

instance : Inhabited NpVal := ⟨.scalar 0⟩

theorem headD_eq_getD (l : List α) (d : α) : l.headD d = l.getD 0 d := by
  cases l <;> rfl

theorem map_eq_build (l : List α) (f : α → β) (d : α) :
    l.map f = build l.length (fun k => f (l.getD k d)) := by
  apply List.ext_getElem (by simp [build_length])
  intro k h1 h2
  rw [build_getElem, List.getElem_map,
    List.getD_eq_getElem _ _ (by simpa [build_length] using h2)]

theorem rebuild2 {a : Arr2} {h w : Nat} (hs : shape2 a = some (h, w)) :
    build h (fun i => build w (fun j => (a.getD i []).getD j 0)) = a := by
  obtain ⟨hl, hpos, hrows⟩ := shape2_spec hs
  subst hl
  have hstep : ∀ i, i < a.length →
      build w (fun j => (a.getD i []).getD j 0) = a.getD i [] := by
    intro i hi
    have hrow : (a.getD i []).length = w := by
      rw [List.getD_eq_getElem _ _ hi]
      exact hrows _ (List.getElem_mem _)
    rw [← hrow]
    exact build_eq_self _ 0
  rw [build_congr _ _ _ hstep]
  exact build_eq_self a []

theorem atleastAll_of_forall {vs : List NpVal} {f : NpVal → Arr3}
    (hc : ∀ v ∈ vs, atleast3d v = some (f v)) :
    atleastAll vs = some (vs.map f) := by
  induction vs with
  | nil => rfl
  | cons v t ih =>
    rw [List.map_cons]
    simp only [atleastAll]
    rw [hc v (by simp), ih (fun x hx => hc x (by simp [hx]))]

/-- The conversion `atleast_3d` applies to a 2-D array: every entry
becomes a singleton along the new depth axis. -/
def rowConv (a : Arr2) : Arr3 :=
  a.map (fun row => row.map (fun x => [x]))

theorem rowConv_length (a : Arr2) : (rowConv a).length = a.length := by
  simp [rowConv]

theorem rowConv_getD (a : Arr2) (i : Nat) (hi : i < a.length) :
    (rowConv a).getD i [] = (a.getD i []).map (fun x => [x]) := by
  rw [rowConv, List.getD_eq_getElem _ _ (by simpa using hi), List.getElem_map,
    List.getD_eq_getElem _ _ hi]

theorem rowConv_rows {a : Arr2} {h w : Nat} (hs : shape2 a = some (h, w)) :
    ∀ row ∈ rowConv a, row.length = w := by
  obtain ⟨hl, hp, hr⟩ := shape2_spec hs
  intro row hrow
  obtain ⟨r, hrm, rfl⟩ := List.mem_map.mp hrow
  simpa using hr r hrm

theorem atleast3d_arr2 {a : Arr2} (hs : (shape2 a).isSome = true) :
    atleast3d (.arr2 a) = some (rowConv a) := by
  obtain ⟨s, hs2⟩ := Option.isSome_iff_exists.mp hs
  simp only [atleast3d, hs2, rowConv]

theorem atleast3d_scalar (x : Int) : atleast3d (.scalar x) = some [[[x]]] := rfl

theorem dstackList_uniform (v0 : NpVal) (vt : List NpVal) (g : NpVal → Arr2) (h w : Nat)
    (hconv : ∀ v ∈ v0 :: vt, atleast3d v = some (rowConv (g v)))
    (hsh : ∀ v ∈ v0 :: vt, shape2 (g v) = some (h, w)) :
    dstackList (v0 :: vt)
      = some (build h (fun i => build w (fun j =>
          (v0 :: vt).map (fun v => ((g v).getD i []).getD j 0)))) := by
  obtain ⟨hl0, hp0, hr0⟩ := shape2_spec (hsh v0 (by simp))
  have hh0 : (rowConv (g v0)).length = h := by
    rw [rowConv_length, hl0]
  have hw0 : ((rowConv (g v0)).headD []).length = w := by
    rw [headD_eq_getD, rowConv_getD _ _ (by omega)]
    rw [List.length_map, List.getD_eq_getElem _ _ (by omega)]
    exact hr0 _ (List.getElem_mem _)
  have hguard : ((rowConv (g v0) :: vt.map (fun v => rowConv (g v))).all
      (fun a => a.length == (rowConv (g v0)).length
        && a.all (fun row => row.length == ((rowConv (g v0)).headD []).length))) = true := by
    rw [hh0, hw0]
    apply List.all_eq_true.mpr
    intro a ha
    have hmem : a ∈ (v0 :: vt).map (fun v => rowConv (g v)) := by
      simpa using ha
    obtain ⟨v, hv, rfl⟩ := List.mem_map.mp hmem
    obtain ⟨hlv, hpv, hrv⟩ := shape2_spec (hsh v hv)
    rw [Bool.and_eq_true]
    constructor
    · simp [rowConv_length, hlv]
    · apply List.all_eq_true.mpr
      intro row hrow
      simpa using rowConv_rows (hsh v hv) row hrow
  unfold dstackList
  rw [atleastAll_of_forall hconv]
  show (if ((rowConv (g v0) :: vt.map (fun v => rowConv (g v))).all
      (fun a => a.length == (rowConv (g v0)).length
        && a.all (fun row => row.length == ((rowConv (g v0)).headD []).length)))
    then some (build (rowConv (g v0)).length
      (fun i => build ((rowConv (g v0)).headD []).length (fun j =>
        ((rowConv (g v0) :: vt.map (fun v => rowConv (g v))).map
          (fun a => (a.getD i []).getD j [])).flatten)))
    else none)
    = some (build h (fun i => build w (fun j =>
        (v0 :: vt).map (fun v => ((g v).getD i []).getD j 0))))
  rw [if_pos hguard, hh0, hw0]
  congr 1
  apply build_congr
  intro i hi
  apply build_congr
  intro j hj
  rw [← List.map_cons (fun v => rowConv (g v)) v0 vt, List.map_map]
  have hmap : ((v0 :: vt).map ((fun a => (a.getD i []).getD j []) ∘ fun v => rowConv (g v)))
      = (v0 :: vt).map (fun v => [((g v).getD i []).getD j 0]) := by
    apply List.map_congr_left
    intro v hv
    obtain ⟨hlv, hpv, hrv⟩ := shape2_spec (hsh v hv)
    have hiv : i < (g v).length := by omega
    simp only [Function.comp]
    rw [rowConv_getD _ _ hiv]
    have hrowlen : ((g v).getD i []).length = w := by
      rw [List.getD_eq_getElem _ _ hiv]
      exact hrv _ (List.getElem_mem _)
    have hjlen : j < (((g v).getD i []).map (fun x => [x])).length := by
      rw [List.length_map, hrowlen]
      exact hj
    have hjlen2 : j < ((g v).getD i []).length := by omega
    rw [List.getD_eq_getElem _ _ hjlen, List.getElem_map]
    congr 1
    exact (List.getD_eq_getElem _ _ hjlen2).symm
  rw [hmap, flatten_map_singleton]

theorem transpose201_uniform (n h w : Nat) (hh : 0 < h) (hw : 0 < w)
    (e : Nat → Nat → Nat → Int) :
    transpose201 (build h (fun i => build w (fun j => build n (fun k => e k i j))))
      = build n (fun k => build h (fun i => build w (fun j => e k i j))) := by
  have hhead : (build h (fun i => build w (fun j => build n (fun k => e k i j)))).headD []
      = build w (fun j => build n (fun k => e k 0 j)) := by
    rw [headD_eq_getD, build_getD _ _ _ 0 hh]
  have hw2 : ((build h (fun i => build w (fun j => build n (fun k => e k i j)))).headD []).length
      = w := by
    rw [hhead, build_length]
  have hd : (((build h (fun i => build w (fun j => build n (fun k => e k i j)))).headD
      []).headD []).length = n := by
    rw [hhead, headD_eq_getD, build_getD _ _ _ 0 hw, build_length]
  unfold transpose201
  show build (((build h (fun i => build w (fun j => build n (fun k => e k i j)))).headD
      []).headD []).length
    (fun k => build (build h (fun i => build w (fun j => build n (fun k => e k i j)))).length
      (fun i => build ((build h (fun i => build w (fun j => build n (fun k => e k i j)))).headD
          []).length
        (fun j => (((build h (fun i => build w (fun j => build n (fun k => e k i j)))).getD i
          []).getD j []).getD k 0)))
    = build n (fun k => build h (fun i => build w (fun j => e k i j)))
  rw [hd, hw2, build_length]
  apply build_congr
  intro k hk
  apply build_congr
  intro i hi
  apply build_congr
  intro j hj
  rw [build_getD _ _ _ i hi, build_getD _ _ _ j hj, build_getD _ _ _ k hk]

theorem dstack_transpose_uniform (v0 : NpVal) (vt : List NpVal) (g : NpVal → Arr2)
    (h w : Nat) (hw : 0 < w)
    (hconv : ∀ v ∈ v0 :: vt, atleast3d v = some (rowConv (g v)))
    (hsh : ∀ v ∈ v0 :: vt, shape2 (g v) = some (h, w)) :
    (dstackList (v0 :: vt)).map transpose201 = some ((v0 :: vt).map g) := by
  obtain ⟨hl0, hp0, hr0⟩ := shape2_spec (hsh v0 (by simp))
  rw [dstackList_uniform v0 vt g h w hconv hsh]
  have hmb : ∀ i j : Nat, (v0 :: vt).map (fun v => ((g v).getD i []).getD j 0)
      = build (vt.length + 1)
          (fun k => ((g ((v0 :: vt).getD k default)).getD i []).getD j 0) := by
    intro i j
    rw [map_eq_build (v0 :: vt) _ default]
    rfl
  show some (transpose201 (build h (fun i => build w (fun j =>
      (v0 :: vt).map (fun v => ((g v).getD i []).getD j 0)))))
    = some ((v0 :: vt).map g)
  simp only [hmb]
  rw [transpose201_uniform (vt.length + 1) h w hp0 hw]
  congr 1
  rw [map_eq_build (v0 :: vt) g default]
  show build (vt.length + 1) (fun k => build h (fun i => build w (fun j =>
      ((g ((v0 :: vt).getD k default)).getD i []).getD j 0)))
    = build (vt.length + 1) (fun k => g ((v0 :: vt).getD k default))
  apply build_congr
  intro k hk
  have hklt : k < (v0 :: vt).length := by simpa using hk
  have hmem : (v0 :: vt).getD k default ∈ v0 :: vt := by
    rw [List.getD_eq_getElem _ _ hklt]
    exact List.getElem_mem _
  exact rebuild2 (hsh _ hmem)

theorem any_action_failed_map_success (l : List NpVal) :
    any_action_failed (l.map Outcome.success) = false := by
  simp [any_action_failed, List.any_map, Function.comp, Outcome.isFailure]

theorem map_val_map_success (l : List NpVal) :
    (l.map Outcome.success).map Outcome.val = l := by
  induction l with
  | nil => rfl
  | cons v t ih => simp [ih, Outcome.val]

theorem assemble_success_nonpil (v0 : NpVal) (vt : List NpVal) (attr : AttrName)
    (b : ImagesBatch) (hpil : ∀ p, v0 ≠ .pil p) :
    assemble ((v0 :: vt).map Outcome.success) attr b
      = (match (dstackList (v0 :: vt)).map transpose201 with
         | some r => setattr b attr (.arr3 r)
         | none => .error .shapeMismatch) := by
  have hfail := any_action_failed_map_success (v0 :: vt)
  have hvals := map_val_map_success (v0 :: vt)
  cases v0 with
  | pil p => exact absurd rfl (hpil p)
  | scalar x =>
    have hvals2 : (Outcome.success (NpVal.scalar x) :: vt.map Outcome.success).map Outcome.val
        = NpVal.scalar x :: vt := by
      simpa using hvals
    unfold assemble
    rw [hfail, if_neg (by simp), List.map_cons]
    dsimp only
    rw [hvals2]
    rfl
  | arr2 a =>
    have hvals2 : (Outcome.success (NpVal.arr2 a) :: vt.map Outcome.success).map Outcome.val
        = NpVal.arr2 a :: vt := by
      simpa using hvals
    unfold assemble
    rw [hfail, if_neg (by simp), List.map_cons]
    dsimp only
    rw [hvals2]
    rfl

theorem assemble_success_stack (v0 : NpVal) (vt : List NpVal) (g : NpVal → Arr2)
    (h w : Nat) (b : ImagesBatch) (hw : 0 < w)
    (hpil : ∀ p, v0 ≠ .pil p)
    (hconv : ∀ v ∈ v0 :: vt, atleast3d v = some (rowConv (g v)))
    (hsh : ∀ v ∈ v0 :: vt, shape2 (g v) = some (h, w))
    (hdata : (ImagesBatch.data b).length = 3) :
    assemble ((v0 :: vt).map Outcome.success) .images b
      = .ok { b with _data := some ((ImagesBatch.data b).set 0
          (some (.arr3 ((v0 :: vt).map g)))) } := by
  rw [assemble_success_nonpil v0 vt .images b hpil,
    dstack_transpose_uniform v0 vt g h w hw hconv hsh]
  show setattr b .images (.arr3 ((v0 :: vt).map g)) = _
  unfold setattr ImagesBatch.setImages listSet
  rw [if_pos (by omega)]

/-- The 2-D array numpy sees inside a per-item value: the array itself,
the pixel array of a PIL image, or the `(1,1)` array a scalar becomes
under `atleast_3d`. -/
def payload : NpVal → Arr2
  | .arr2 a => a
  | .pil a => a
  | .scalar x => [[x]]

theorem getD_map_lt (l : List α) (f : α → β) (dα : α) (dβ : β) (p : Nat)
    (hp : p < l.length) :
    (l.map f).getD p dβ = f (l.getD p dα) := by
  rw [List.getD_eq_getElem _ _ (by simpa using hp), List.getElem_map,
    List.getD_eq_getElem _ _ hp]

theorem dstackList_mismatch (a0 : Arr2) (rest : List Arr2) (a a2 : Arr2)
    (s s2 : Nat × Nat)
    (ha : a ∈ a0 :: rest) (ha2 : a2 ∈ a0 :: rest)
    (hall : ∀ a3 ∈ a0 :: rest, (shape2 a3).isSome = true)
    (hsa : shape2 a = some s) (hsa2 : shape2 a2 = some s2) (hne : s ≠ s2) :
    dstackList ((a0 :: rest).map NpVal.arr2) = none := by
  have hconv : ∀ v ∈ (a0 :: rest).map NpVal.arr2,
      atleast3d v = some (rowConv (payload v)) := by
    intro v hv
    obtain ⟨a3, ha3, rfl⟩ := List.mem_map.mp hv
    rw [atleast3d_arr2 (hall a3 ha3)]
    rfl
  have hshape : ∀ a3 ∈ a0 :: rest, shape2 a3 = some (a3.length, (a3.headD []).length) := by
    intro a3 ha3
    obtain ⟨s3, hs3⟩ := Option.isSome_iff_exists.mp (hall a3 ha3)
    obtain ⟨hl3, hp3, hr3⟩ := shape2_spec hs3
    have hhead : (a3.headD []).length = s3.2 := by
      rw [headD_eq_getD, List.getD_eq_getElem _ _ (by omega)]
      exact hr3 _ (List.getElem_mem _)
    rw [hs3, hl3, hhead]
  unfold dstackList
  rw [atleastAll_of_forall hconv]
  rw [List.map_cons]
  show (if (((fun v => rowConv (payload v)) (NpVal.arr2 a0)
        :: (rest.map NpVal.arr2).map (fun v => rowConv (payload v))).all
      (fun x => x.length == ((fun v => rowConv (payload v)) (NpVal.arr2 a0)).length
        && x.all (fun row => row.length
          == (((fun v => rowConv (payload v)) (NpVal.arr2 a0)).headD []).length)))
    then some (build ((fun v => rowConv (payload v)) (NpVal.arr2 a0)).length
      (fun i => build ((((fun v => rowConv (payload v)) (NpVal.arr2 a0)).headD []).length)
        (fun j => (((fun v => rowConv (payload v)) (NpVal.arr2 a0)
            :: (rest.map NpVal.arr2).map (fun v => rowConv (payload v))).map
          (fun x => (x.getD i []).getD j [])).flatten)))
    else none)
    = none
  rw [if_neg]
  intro htrue
  -- from the guard every converted array matches the dimensions of the
  -- first one, forcing every shape to be equal
  have hforce : ∀ a3 ∈ a0 :: rest, shape2 a3
      = some ((rowConv a0).length, ((rowConv a0).headD []).length) := by
    intro a3 ha3
    have hmem : rowConv a3 ∈ ((fun v => rowConv (payload v)) (NpVal.arr2 a0)
        :: (rest.map NpVal.arr2).map (fun v => rowConv (payload v))) := by
      rcases List.mem_cons.mp ha3 with h1 | h1
      · rw [h1]; exact List.mem_cons_self _ _
      · refine List.mem_cons.mpr (Or.inr ?_)
        refine List.mem_map.mpr ⟨NpVal.arr2 a3, List.mem_map.mpr ⟨a3, h1, rfl⟩, rfl⟩
    have hcond := List.all_eq_true.mp htrue _ hmem
    rw [Bool.and_eq_true] at hcond
    obtain ⟨hlen, hrows⟩ := hcond
    obtain ⟨s3, hs3⟩ := Option.isSome_iff_exists.mp (hall a3 ha3)
    obtain ⟨hl3, hp3, hr3⟩ := shape2_spec hs3
    have hlen2 : a3.length = (rowConv a0).length := by
      have := hlen
      simp only [payload, rowConv_length] at this
      simpa [rowConv_length] using this
    have hrow0 : (a3.headD []).length = ((rowConv a0).headD []).length := by
      have hr0mem : a3.headD [] ∈ a3 := by
        rw [headD_eq_getD, List.getD_eq_getElem _ _ (by omega)]
        exact List.getElem_mem _
      have hrc : (a3.headD []).map (fun x => [x]) ∈ rowConv a3 :=
        List.mem_map.mpr ⟨a3.headD [], hr0mem, rfl⟩
      have := List.all_eq_true.mp hrows _ hrc
      simpa [payload] using this
    rw [hshape a3 ha3, hlen2, hrow0]
  have h1 := hforce a ha
  have h2 := hforce a2 ha2
  rw [hsa] at h1
  rw [hsa2] at h2
  apply hne
  have e1 := Option.some.inj h1
  have e2 := Option.some.inj h2
  rw [e1, e2]

/-- C2 counterexample: dispatching fn(x) = x * 2 over [1, 2, 3] and
assembling does not produce the plain sequence [2, 4, 6]: the non-PIL
results go through np.dstack/np.transpose, so the attribute becomes the
stacked (3,1,1) array [[[2]],[[4]],[[6]]], which is not the claimed
wholesale list of per-item values. -/
theorem c2_counterexample :
    assemble (dispatch (fun x => .ok (.scalar (x * 2))) [(1 : Int), 2, 3]) .images batch0
      = .ok { batch0 with _data := some [some (.arr3 [[[2]], [[4]], [[6]]]), none, none] }
    ∧ some (AttrVal.arr3 [[[2]], [[4]], [[6]]])
      ≠ some (AttrVal.vals [.scalar 2, .scalar 4, .scalar 6]) :=
  ⟨rfl, by decide⟩

/-- C2 (amended): for every non-empty input sequence and failure-free
scalar-valued fn, dispatch followed by assemble writes a stacked
(n,1,1) composite into the target attribute whose slice at position p
is [[fn(inputs[p])]] — the per-item value survives at its position but
wrapped by the stacking — rather than the plain sequence of values; the
wholesale replace path is taken only when the per-item results are PIL
images. -/
theorem c2_scalar_results_stacked (inputs : List Int) (fn : Int → Int) (b : ImagesBatch)
    (hne : inputs ≠ []) (hdata : (ImagesBatch.data b).length = 3) :
    ∃ r, assemble (dispatch (fun x => .ok (.scalar (fn x))) inputs) .images b
        = .ok { b with _data := some ((ImagesBatch.data b).set 0 (some (.arr3 r))) }
      ∧ r.length = inputs.length
      ∧ (∀ p, p < inputs.length → r.getD p [] = [[fn (inputs.getD p 0)]]) := by
  have hdisp : dispatch (fun x => .ok (.scalar (fn x))) inputs
      = (inputs.map (fun x => NpVal.scalar (fn x))).map Outcome.success := by
    unfold dispatch
    rw [List.map_map]
    rfl
  rcases inputs with _ | ⟨x0, xt⟩
  · exact absurd rfl hne
  · have hconv : ∀ v ∈ NpVal.scalar (fn x0) :: xt.map (fun x => NpVal.scalar (fn x)),
        atleast3d v = some (rowConv (payload v)) := by
      intro v hv
      rcases List.mem_cons.mp hv with h1 | h1
      · subst h1; rfl
      · obtain ⟨x, hx, rfl⟩ := List.mem_map.mp h1
        rfl
    have hshp : ∀ v ∈ NpVal.scalar (fn x0) :: xt.map (fun x => NpVal.scalar (fn x)),
        shape2 (payload v) = some (1, 1) := by
      intro v hv
      rcases List.mem_cons.mp hv with h1 | h1
      · subst h1; rfl
      · obtain ⟨x, hx, rfl⟩ := List.mem_map.mp h1
        rfl
    have hmain := assemble_success_stack (NpVal.scalar (fn x0))
      (xt.map (fun x => NpVal.scalar (fn x))) payload 1 1 b (by omega)
      (fun p => by simp) hconv hshp hdata
    have hr : (NpVal.scalar (fn x0) :: xt.map (fun x => NpVal.scalar (fn x))).map payload
        = (x0 :: xt).map (fun x => [[fn x]]) := by
      rw [List.map_cons, List.map_map]
      rfl
    rw [hr] at hmain
    refine ⟨(x0 :: xt).map (fun x => [[fn x]]), ?_, by simp, ?_⟩
    · rw [hdisp, List.map_cons]
      exact hmain
    · intro p hp
      have hp2 : p < (x0 :: xt).length := by simpa using hp
      rw [getD_map_lt _ _ 0 _ p hp2]

/-- C2 witness: the amended statement at the concrete scenario
fn(x) = x * 2 over [1, 2, 3]. -/
theorem c2_witness :
    (([(1 : Int), 2, 3] : List Int) ≠ [])
    ∧ ∃ r, assemble (dispatch (fun x => .ok (.scalar (x * 2))) [(1 : Int), 2, 3])
          .images batch0
        = .ok { batch0 with
            _data := some ((ImagesBatch.data batch0).set 0 (some (.arr3 r))) }
      ∧ r.length = ([(1 : Int), 2, 3] : List Int).length
      ∧ (∀ p, p < ([(1 : Int), 2, 3] : List Int).length
          → r.getD p [] = [[([(1 : Int), 2, 3] : List Int).getD p 0 * 2]]) := by
  refine ⟨by simp, ?_⟩
  exact c2_scalar_results_stacked [1, 2, 3] (fun x => x * 2) batch0 (by simp) rfl

/-- C4: for all-success per-item 2-D arrays of identical shape (h,w)
the assembled attribute is the stacked composite with n slices whose
slice at every position p is the p-th per-item array; for per-item
arrays of differing shapes assemble fails with the shape-mismatch error
(the ValueError raised inside np.dstack). -/
theorem c4_stack_strategy :
    (∀ (arrs : List Arr2) (h w : Nat) (b : ImagesBatch),
        arrs ≠ [] → 0 < w →
        (∀ a ∈ arrs, shape2 a = some (h, w)) →
        (ImagesBatch.data b).length = 3 →
        ∃ r, assemble (arrs.map (fun a => Outcome.success (.arr2 a))) .images b
            = .ok { b with _data := some ((ImagesBatch.data b).set 0 (some (.arr3 r))) }
          ∧ r.length = arrs.length
          ∧ (∀ a ∈ r, shape2 a = some (h, w))
          ∧ (∀ p, p < arrs.length → r.getD p [] = arrs.getD p []))
    ∧ (∀ (arrs : List Arr2) (b : ImagesBatch) (a a2 : Arr2) (s s2 : Nat × Nat),
        a ∈ arrs → a2 ∈ arrs →
        (∀ a3 ∈ arrs, (shape2 a3).isSome = true) →
        shape2 a = some s → shape2 a2 = some s2 → s ≠ s2 →
        assemble (arrs.map (fun a3 => Outcome.success (.arr2 a3))) .images b
          = .error .shapeMismatch) := by
  constructor
  · intro arrs h w b hne hw hsh hdata
    rcases arrs with _ | ⟨a0, rest⟩
    · exact absurd rfl hne
    · have hconv : ∀ v ∈ NpVal.arr2 a0 :: rest.map NpVal.arr2,
          atleast3d v = some (rowConv (payload v)) := by
        intro v hv
        rcases List.mem_cons.mp hv with h1 | h1
        · subst h1
          rw [atleast3d_arr2 (by rw [hsh a0 (by simp)]; rfl)]
          rfl
        · obtain ⟨a3, ha3, rfl⟩ := List.mem_map.mp h1
          rw [atleast3d_arr2 (by rw [hsh a3 (by simp [ha3])]; rfl)]
          rfl
      have hshp : ∀ v ∈ NpVal.arr2 a0 :: rest.map NpVal.arr2,
          shape2 (payload v) = some (h, w) := by
        intro v hv
        rcases List.mem_cons.mp hv with h1 | h1
        · subst h1
          exact hsh a0 (by simp)
        · obtain ⟨a3, ha3, rfl⟩ := List.mem_map.mp h1
          exact hsh a3 (by simp [ha3])
      have hmain := assemble_success_stack (NpVal.arr2 a0) (rest.map NpVal.arr2)
        payload h w b hw (fun p => by simp) hconv hshp hdata
      have hid : rest.map (payload ∘ NpVal.arr2) = rest := by
        have hcomp : (payload ∘ NpVal.arr2) = id := rfl
        rw [hcomp, List.map_id]
      have hr : (NpVal.arr2 a0 :: rest.map NpVal.arr2).map payload = a0 :: rest := by
        rw [List.map_cons, List.map_map, hid]
        rfl
      rw [hr] at hmain
      refine ⟨a0 :: rest, ?_, rfl, hsh, ?_⟩
      · have harr : (a0 :: rest).map (fun a => Outcome.success (NpVal.arr2 a))
            = (NpVal.arr2 a0 :: rest.map NpVal.arr2).map Outcome.success := by
          rw [List.map_cons, List.map_cons, List.map_map]
          rfl
        rw [harr]
        exact hmain
      · intro p hp
        rfl
  · intro arrs b a a2 s s2 ha ha2 hall hsa hsa2 hne2
    rcases arrs with _ | ⟨a0, rest⟩
    · cases ha
    · have harr : (a0 :: rest).map (fun a3 => Outcome.success (NpVal.arr2 a3))
          = (NpVal.arr2 a0 :: rest.map NpVal.arr2).map Outcome.success := by
        rw [List.map_cons, List.map_cons, List.map_map]
        rfl
      rw [harr, assemble_success_nonpil _ _ _ _ (fun p => by simp),
        ← List.map_cons NpVal.arr2 a0 rest,
        dstackList_mismatch a0 rest a a2 s s2 ha ha2 hall hsa hsa2 hne2]
      rfl

/-- C4 witness: both halves at concrete inputs — two (1,2) arrays stack
into a (2,1,2) composite whose slices are the inputs, and a (1,2) array
with a (1,3) array fails with the shape-mismatch error. -/
theorem c4_witness :
    (∃ r, assemble (([[[1, 2]], [[3, 4]]] : List Arr2).map
          (fun a => Outcome.success (.arr2 a))) .images batch0
        = .ok { batch0 with
            _data := some ((ImagesBatch.data batch0).set 0 (some (.arr3 r))) }
      ∧ r.length = ([[[1, 2]], [[3, 4]]] : List Arr2).length
      ∧ (∀ a ∈ r, shape2 a = some (1, 2))
      ∧ (∀ p, p < ([[[1, 2]], [[3, 4]]] : List Arr2).length
          → r.getD p [] = ([[[1, 2]], [[3, 4]]] : List Arr2).getD p []))
    ∧ assemble (([[[1, 2]], [[3, 4, 5]]] : List Arr2).map
          (fun a3 => Outcome.success (.arr2 a3))) .images batch0
        = .error .shapeMismatch := by
  constructor
  · exact c4_stack_strategy.1 [[[1, 2]], [[3, 4]]] 1 2 batch0 (by simp) (by omega)
      (by decide) rfl
  · exact c4_stack_strategy.2 [[[1, 2]], [[3, 4, 5]]] batch0 [[1, 2]] [[3, 4, 5]]
      (1, 2) (1, 3) (by simp) (by simp) (by decide) (by decide) (by decide) (by decide)

theorem selectByIndices_range (c : List NpVal) :
    selectByIndices c (List.range c.length) = some c := by
  unfold selectByIndices
  rw [if_pos]
  · exact congrArg some (build_eq_self c (.scalar 0))
  · apply List.all_eq_true.mpr
    intro ix hix
    simpa using List.mem_range.mp hix

/-- C6: with no format set, a tuple source fills attribute slot i with
container i selected at the index positions — for the default positional
index over n items and containers of length n this is container i
itself — for every i below the tuple length, and every remaining slot
stays None. -/
theorem c6_load_tuple (n : Nat) (cs : List (List NpVal)) (b : ImagesBatch)
    (hidx : b.index = List.range n) (hlen : cs.length ≤ 3)
    (hcs : ∀ c ∈ cs, c.length = n) :
    load b (.tup cs) none
      = .ok { b with _data := some [
          if 0 < cs.length then some (.vals (cs.getD 0 [])) else none,
          if 1 < cs.length then some (.vals (cs.getD 1 [])) else none,
          if 2 < cs.length then some (.vals (cs.getD 2 [])) else none] } := by
  have hslot : ∀ i, loadSlot cs b.index i
      = .ok (if i < cs.length then some (.vals (cs.getD i [])) else none) := by
    intro i
    unfold loadSlot
    split
    · rename_i hi
      have hgd : cs.getD i [] = cs.get ⟨i, hi⟩ := by
        rw [List.getD_eq_getElem _ _ hi, List.get_eq_getElem]
      have hclen : (cs.get ⟨i, hi⟩).length = n := by
        apply hcs
        rw [List.get_eq_getElem]
        exact List.getElem_mem _
      rw [hidx, ← hclen, selectByIndices_range, hgd]
    · rfl
  show (do
      let s0 ← loadSlot cs b.index 0
      let s1 ← loadSlot cs b.index 1
      let s2 ← loadSlot cs b.index 2
      Except.ok { b with _data := some [s0, s1, s2] } : Except PyErr ImagesBatch)
    = _
  rw [hslot 0, hslot 1, hslot 2]
  rfl

/-- C6 witness: concrete scenario 3 — loading the 1-tuple ([10,20,30],)
on the positional index of length 3 makes slot 0 the container and
leaves slots 1 and 2 None. -/
theorem c6_witness :
    batch0.index = List.range 3
    ∧ load batch0 (.tup [[.scalar 10, .scalar 20, .scalar 30]]) none
        = .ok { batch0 with
            _data := some [some (.vals [.scalar 10, .scalar 20, .scalar 30]),
              none, none] } := by
  constructor
  · rfl
  · have h := c6_load_tuple 3 [[.scalar 10, .scalar 20, .scalar 30]] batch0 rfl
      (by norm_num) (by intro c hc; rw [List.mem_singleton.mp hc]; rfl)
    simpa using h
